import Mathlib

/-!
Verification of the pwm-tool repository against its specification.

The repository ships a single source file, src/main.c (the CLI front-end).
Definitions below that embed main.c are translated directly from it.
The core (Duty Encoder, PWM Device Handle, Script Interpreter, declared in
pwm.h and implemented in pwm.c) is not in the source tree; those definitions
are modelled from the spec and say so in their doc comments.
-/

namespace PwmTool

/-- Modelled from the spec: error kinds of the core (section 7 of the spec);
pwm.h with the pwm_status_t enumeration is not in the source tree. -/
inductive PwmError where
  | deviceNotFound
  | permissionDenied
  | ioError (attr : String) (os_code : Int)
  | invalidDutyRange
  | unknownCommand (letter : Char)
  | outOfMemory
deriving DecidableEq

/-- Modelled from the spec: DutyValue is a tagged value, either a raw
duty on the 0 to 255 scale or a percentage (section 3 of the spec). The
numeric payload is kept as Nat; the u8 domain bound appears as a
hypothesis where a theorem needs it, and the encoder itself rejects
out-of-range payloads (section 3 invariant). -/
inductive DutyValue where
  | raw (v : Nat)
  | percent (p : Nat)
deriving DecidableEq

/-- Modelled from the spec: the Duty Encoder (section 4.1).
encode(value, period) is pure; Raw(v) gives period * v / 255 and
Percent(p) gives period * p / 100, integer-truncated; it fails with
InvalidDutyRange when v is 0 (or outside the 1 to 255 raw scale,
section 3 invariant) or p is 0 or p is greater than 100. -/
def encode (value : DutyValue) (period : Nat) : Except PwmError Nat :=
  match value with
  | .raw v =>
      if 1 ≤ v ∧ v ≤ 255 then .ok (period * v / 255)
      else .error .invalidDutyRange
  | .percent p =>
      if 1 ≤ p ∧ p ≤ 100 then .ok (period * p / 100)
      else .error .invalidDutyRange

/-- Numeric value of a character as a digit in the given base, when it is
one (decimal digits, then letters in either case for values 10 and up). -/
def char_digit (base : Nat) (c : Char) : Option Nat :=
  let v :=
    if '0' ≤ c ∧ c ≤ '9' then some (c.toNat - 48)
    else if 'a' ≤ c ∧ c ≤ 'z' then some (c.toNat - 87)
    else if 'A' ≤ c ∧ c ≤ 'Z' then some (c.toNat - 55)
    else none
  match v with
  | some d => if d < base then some d else none
  | none => none

/-- Accumulated value of the longest prefix of digits of the given base;
parsing stops at the first character that is not a digit of the base. -/
def parse_digits (base : Nat) : List Char → Nat → Nat
  | [], acc => acc
  | c :: rest, acc =>
    match char_digit base c with
    | some d => parse_digits base rest (acc * base + d)
    | none => acc

/-- Models the C library strtoul as called by main.c on argument strings
without leading whitespace or sign: the value of the longest prefix of
digits in the given base; base 0 selects hexadecimal after a 0x or 0X
prefix, octal after a leading 0, and decimal otherwise. -/
def strtoul (cs : List Char) (base : Nat) : Nat :=
  if base = 0 then
    match cs with
    | '0' :: 'x' :: rest => parse_digits 16 rest 0
    | '0' :: 'X' :: rest => parse_digits 16 rest 0
    | '0' :: rest => parse_digits 8 rest 0
    | _ => parse_digits 10 cs 0
  else parse_digits base cs 0

/-- Modelled from the spec: the percent marker bit of the bitflag duty
encoding (design note in section 9 of the spec). pwm.h, which defines
PWM_DUTY_PERCENT_FLAG, is not in the source tree; the bit position is
taken as bit 31, above the 8-bit raw scale. No claim depends on the
position beyond its being a single bit outside the numeric payload. -/
def PWM_DUTY_PERCENT_FLAG : Nat := 2 ^ 31

/-- Modelled from the spec: the default duty value PWM_DUTY_DEFAULT of
pwm.h, which is not in the source tree; the usage text of main.c states
the default is 50 percent. -/
def PWM_DUTY_DEFAULT : Nat := PWM_DUTY_PERCENT_FLAG ||| 50

/-- The duty option handling of parse_cli_args (main.c, case D): when the
argument is non-empty and its last character is the percent sign, the
stored value is PWM_DUTY_PERCENT_FLAG bitwise-or the strtoul base 10
value of the string cast to unsigned int; otherwise the strtoul base 0
value cast to unsigned int. -/
def parse_duty_arg (s : String) : Nat :=
  let cs := s.data
  if 0 < cs.length ∧ cs.getLast? = some '%' then
    PWM_DUTY_PERCENT_FLAG ||| (strtoul cs 10 % 2 ^ 32)
  else
    strtoul cs 0 % 2 ^ 32

/-- The configuration record of main.c (struct config). keep_enabled is
an int used as a boolean in the source and is modelled as Bool; a script
of none models the NULL pointer of the global initializer. -/
structure Config where
  chip : Nat
  channel : Nat
  frequency_hz : Nat
  duration_ms : Nat
  duty_val : Nat
  keep_enabled : Bool
  script : Option String
deriving DecidableEq

/-- The initial value of the global config structure of main.c. -/
def default_config : Config :=
  { chip := 0, channel := 0, frequency_hz := 1000, duration_ms := 250
  , duty_val := PWM_DUTY_DEFAULT, keep_enabled := false, script := none }

/-- One option report from getopt_long as consumed by the switch in
parse_cli_args of main.c; the invalid constructor is the question mark
report getopt produces for an option it rejects. -/
inductive Opt where
  | invalid
  | help
  | chip (arg : String)
  | channel (arg : String)
  | frequency (arg : String)
  | duration (arg : String)
  | duty (arg : String)
  | script (arg : String)
  | keep
  | version
deriving DecidableEq

/-- Result of parse_cli_args of main.c: the normal return of 0 with the
updated configuration, the return of minus EINVAL on an invalid option,
or a direct process exit (help and version print and call exit inside
the option loop). -/
inductive ParseOutcome where
  | ok (cfg : Config)
  | invalid_option
  | exited (code : Int)
deriving DecidableEq

/-- parse_cli_args of main.c over the stream of getopt reports: numeric
options update the configuration through strtoul with base 0 cast to
unsigned int, duty uses the percent-suffix rule, script stores the
argument, keep-enabled sets the flag; an invalid option returns minus
EINVAL at once; help and version exit 0. The out-of-memory exit on a
failed strdup is not modelled (strdup is assumed to succeed). -/
def parse_cli_args (cfg : Config) : List Opt → ParseOutcome
  | [] => .ok cfg
  | o :: rest =>
    match o with
    | .invalid => .invalid_option
    | .help => .exited 0
    | .chip a => parse_cli_args { cfg with chip := strtoul a.data 0 % 2 ^ 32 } rest
    | .channel a => parse_cli_args { cfg with channel := strtoul a.data 0 % 2 ^ 32 } rest
    | .frequency a => parse_cli_args { cfg with frequency_hz := strtoul a.data 0 % 2 ^ 32 } rest
    | .duration a => parse_cli_args { cfg with duration_ms := strtoul a.data 0 % 2 ^ 32 } rest
    | .duty a => parse_cli_args { cfg with duty_val := parse_duty_arg a } rest
    | .script a => parse_cli_args { cfg with script := some a } rest
    | .keep => parse_cli_args { cfg with keep_enabled := true } rest
    | .version => .exited 0

/-- The default script selection of main.c (lines 317 to 322): a script
given on the command line is passed through unchanged; otherwise the
script is fduk when keep_enabled is set and fdu when it is not. -/
def select_script (script : Option String) (keep_enabled : Bool) : String :=
  match script with
  | some s => s
  | none => if keep_enabled then "fduk" else "fdu"

/-- The initial value of the exit_flag global of main.c, an int holding 0
at process start, modelled as Bool. -/
def exit_flag_init : Bool := false

/-- handle_signal of main.c: regardless of the delivered signal number
and of the previous value, it writes 1 to exit_flag. -/
def handle_signal (_previous : Bool) : Bool := true

/-- One event touching exit_flag: a signal delivery runs handle_signal;
every other step of the program only reads the flag (main.c contains no
other assignment to it, and per section 5 of the spec the interpreter
reads the stop flag cooperatively and never writes it). -/
inductive FlagEvent where
  | signal
  | readOnlyStep
deriving DecidableEq

/-- Value of exit_flag after one event. -/
def flag_step (f : Bool) : FlagEvent → Bool
  | .signal => handle_signal f
  | .readOnlyStep => f

/-- Value of exit_flag after a sequence of events from process start. -/
def flag_run (evs : List FlagEvent) : Bool :=
  evs.foldl flag_step exit_flag_init

/-- Modelled from the spec: primitive operations the Device Handle issues
to the hardware channel (section 4.2 of the spec). -/
inductive DevOp where
  | setFrequency (hz : Nat)
  | setDuty (duty : Nat)
  | enable
  | disable
  | unexport
deriving DecidableEq

/-- Modelled from the spec: the overall interpreter status (section 4.3,
Termination): success, the distinct interrupted status, or the first
command or device failure encountered. -/
inductive ExecStatus where
  | ok
  | interrupted
  | error (e : PwmError)
deriving DecidableEq

/-- Device operations performed in order, together with the final status
of a script run. -/
structure ExecResult where
  ops : List DevOp
  status : ExecStatus
deriving DecidableEq

/-- The pwm_execute_config record built by main (main.c, lines 309 to
315): script text and the default frequency, duration and duty value,
the duty still in its bitflag encoding since main.c passes
config.duty_val through unchanged. The stop flag is modelled separately
as the schedule of its readings. -/
structure pwm_execute_config_t where
  script : String
  default_frequency_hz : Nat
  default_duration_ms : Nat
  default_duty_val : Nat
deriving DecidableEq

/-- The pwm_execute_config main.c builds from a parsed configuration,
including the default script selection. -/
def pwm_execute_config_of (cfg : Config) : pwm_execute_config_t :=
  { script := select_script cfg.script cfg.keep_enabled
  , default_frequency_hz := cfg.frequency_hz
  , default_duration_ms := cfg.duration_ms
  , default_duty_val := cfg.duty_val }

/-- Modelled from the spec: the bitflag duty value is decoded once at the
core boundary into the tagged DutyValue (design note in section 9): the
percent marker bit selects Percent with the remaining bits as payload,
and its absence selects Raw. -/
def decode_duty (val : Nat) : DutyValue :=
  if val.testBit 31 then .percent (val % PWM_DUTY_PERCENT_FLAG)
  else .raw val

/-- Modelled from the spec: the wait tick of the D step, an
implementation choice (design note in section 9 suggests for example
10 ms); taken as 10 ms. No claim depends on the granularity. -/
def WAIT_TICK_MS : Nat := 10

/-- Number of stop-flag checks a D wait performs for the given default
duration. -/
def wait_ticks (duration_ms : Nat) : Nat := duration_ms / WAIT_TICK_MS

/-- Whether one of the wait ticks at consecutive check indices starting
at the given index observes the stop flag set. -/
def wait_interrupted (stop : Nat → Bool) : Nat → Nat → Bool
  | _, 0 => false
  | start, t + 1 => stop start || wait_interrupted stop (start + 1) t

/-- Modelled from the spec: the Script Interpreter loop (section 4.3).
One command letter is consumed per step, left to right. Before each
command the stop flag is checked (chk counts the readings); if it is set
the run aborts with the interrupted status. The letter f applies the
default frequency, after which the period is 1e9 divided by the
frequency (section 4.2); d encodes the default duty against the current
period and applies it; u enables the output; D waits for the default
duration, checking the stop flag at every tick; k is skipped as a no-op
marker; any other letter fails with UnknownCommand. Each hardware
operation may fail, modelled by the dev oracle giving the error, if any,
of the n-th operation (opn counts them); a failure aborts the remaining
steps with that error and without rollback of the operations already
performed, which ops accumulates in reverse. -/
def pwm_execute_go (cfg : pwm_execute_config_t) (stop : Nat → Bool)
    (dev : Nat → Option PwmError) :
    List Char → Nat → Nat → Nat → List DevOp → ExecResult
  | [], _, _, _, ops => ⟨ops.reverse, .ok⟩
  | c :: rest, chk, opn, period, ops =>
    if stop chk then ⟨ops.reverse, .interrupted⟩
    else if c = 'f' then
      match dev opn with
      | some e => ⟨ops.reverse, .error e⟩
      | none =>
        pwm_execute_go cfg stop dev rest (chk + 1) (opn + 1)
          (1000000000 / cfg.default_frequency_hz)
          (.setFrequency cfg.default_frequency_hz :: ops)
    else if c = 'd' then
      match encode (decode_duty cfg.default_duty_val) period with
      | .error e => ⟨ops.reverse, .error e⟩
      | .ok duty =>
        match dev opn with
        | some e => ⟨ops.reverse, .error e⟩
        | none =>
          pwm_execute_go cfg stop dev rest (chk + 1) (opn + 1) period
            (.setDuty duty :: ops)
    else if c = 'u' then
      match dev opn with
      | some e => ⟨ops.reverse, .error e⟩
      | none =>
        pwm_execute_go cfg stop dev rest (chk + 1) (opn + 1) period
          (.enable :: ops)
    else if c = 'D' then
      if wait_interrupted stop (chk + 1) (wait_ticks cfg.default_duration_ms) then
        ⟨ops.reverse, .interrupted⟩
      else
        pwm_execute_go cfg stop dev rest
          (chk + 1 + wait_ticks cfg.default_duration_ms) opn period ops
    else if c = 'k' then
      pwm_execute_go cfg stop dev rest (chk + 1) opn period ops
    else ⟨ops.reverse, .error (.unknownCommand c)⟩

/-- Modelled from the spec: pwm_execute runs the script of the
configuration from its first character, with no stop reading consumed,
no operation performed, and the channel at its pre-existing hardware
period (the environment parameter initPeriod). -/
def pwm_execute (cfg : pwm_execute_config_t) (stop : Nat → Bool)
    (dev : Nat → Option PwmError) (initPeriod : Nat) : ExecResult :=
  pwm_execute_go cfg stop dev cfg.script.data 0 0 initPeriod []

/-- Modelled from the spec: the close operation of the Device Handle
(section 4.2): when keep_enabled is false it disables the channel and
unexports it; when true it leaves the hardware untouched and releases
only the in-process handle, issuing no device operation. The result is
the list of device operations the close issues. -/
def pwm_close (keep_enabled : Bool) : List DevOp :=
  if keep_enabled then [] else [.disable, .unexport]

/-- Modelled from the spec: the numeric value of each error status.
pwm.h, which assigns the pwm_status_t numbers, is not in the source
tree; the values are taken as distinct negative errno-style numbers, and
no claim depends on more than their being nonzero. An I/O error carries
an attribute name and OS code for diagnostics; its status number is the
EIO value. -/
def pwm_err_code : PwmError → Int
  | .deviceNotFound => -19
  | .permissionDenied => -13
  | .ioError _ _ => -5
  | .invalidDutyRange => -34
  | .unknownCommand _ => -22
  | .outOfMemory => -12

/-- Modelled from the spec: the process-facing code of an interpreter
status (section 6): 0 on success, the status code of the first failure
on an error, and 0 for an interruption, which is not itself an error
exit. -/
def status_code : ExecStatus → Int
  | .ok => 0
  | .interrupted => 0
  | .error e => pwm_err_code e

/-- Observable milestones of one run of main (main.c): printing the
usage text, the attempt to open the channel, the interpreter invocation,
and the close of the handle. -/
inductive MainEvent where
  | usage
  | openAttempt
  | execute
  | close
deriving DecidableEq

/-- The EINVAL constant of errno.h. -/
def EINVAL : Int := 22

/-- main of main.c over the stream of getopt reports and the behavior of
the environment: openStatus is what pwm_open returns, stop the schedule
of stop-flag readings (the exit_flag written by handle_signal), dev the
hardware failure oracle and initPeriod the pre-existing channel period.
When argument parsing fails main prints the usage text and returns
EINVAL; exits from inside parsing (help, version) are passed through
with an empty trace. When pwm_open fails main exits with that status.
Otherwise main builds the pwm_execute_config, defaulting the script via
select_script, runs pwm_execute, closes the handle unconditionally and
exits with the status code of the interpreter result. -/
def pwm_main (opts : List Opt) (openStatus : Int) (stop : Nat → Bool)
    (dev : Nat → Option PwmError) (initPeriod : Nat) : List MainEvent × Int :=
  match parse_cli_args default_config opts with
  | .exited code => ([], code)
  | .invalid_option => ([.usage], EINVAL)
  | .ok cfg =>
    if openStatus ≠ 0 then ([.openAttempt], openStatus)
    else
      let r := pwm_execute (pwm_execute_config_of cfg) stop dev initPeriod
      ([.openAttempt, .execute, .close], status_code r.status)

/-- The u8 domain of a DutyValue payload (section 3 of the spec gives
both payloads the u8 type). -/
def duty_in_u8 : DutyValue → Prop
  | .raw v => v ≤ 255
  | .percent p => p ≤ 255

/-- C1: in every run without a supplied script, main passes exactly one
of the two canonical default script strings to the interpreter, fduk
when keep_enabled is set and fdu when it is not; a supplied script is
passed through unchanged. -/
theorem claim_C1_default_script_selection :
    (∀ cfg : Config, cfg.script = none → cfg.keep_enabled = true →
       (pwm_execute_config_of cfg).script = "fduk")
    ∧ (∀ cfg : Config, cfg.script = none → cfg.keep_enabled = false →
       (pwm_execute_config_of cfg).script = "fdu")
    ∧ (∀ (cfg : Config) (s : String), cfg.script = some s →
       (pwm_execute_config_of cfg).script = s) := by
  refine ⟨?_, ?_, ?_⟩
  · intro cfg hs hk
    simp [pwm_execute_config_of, select_script, hs, hk]
  · intro cfg hs hk
    simp [pwm_execute_config_of, select_script, hs, hk]
  · intro cfg s hs
    simp [pwm_execute_config_of, select_script, hs]

/-- Witness for C1 at concrete configurations. -/
theorem claim_C1_default_script_selection_witness :
    (pwm_execute_config_of { default_config with keep_enabled := true }).script = "fduk"
    ∧ (pwm_execute_config_of default_config).script = "fdu"
    ∧ (pwm_execute_config_of { default_config with script := some "uDf" }).script = "uDf" :=
  ⟨claim_C1_default_script_selection.1 _ rfl rfl,
   claim_C1_default_script_selection.2.1 _ rfl rfl,
   claim_C1_default_script_selection.2.2 _ "uDf" rfl⟩

/-- C6: for every period and every in-range duty, the encoder computes
exactly the reference formula with integer truncation: Percent p maps to
period times p divided by 100 for p from 1 to 100, and Raw v maps to
period times v divided by 255 for v from 1 to 255. The encoder is a pure
function of its two arguments, so it has no side effects. -/
theorem claim_C6_encoder_formula :
    (∀ (p period : Nat), 1 ≤ p → p ≤ 100 →
       encode (DutyValue.percent p) period = Except.ok (period * p / 100))
    ∧ (∀ (v period : Nat), 1 ≤ v → v ≤ 255 →
       encode (DutyValue.raw v) period = Except.ok (period * v / 255)) := by
  constructor
  · intro p period h1 h2
    simp [encode, h1, h2]
  · intro v period h1 h2
    simp [encode, h1, h2]

/-- Witness for C6 at concrete in-range duties. -/
theorem claim_C6_encoder_formula_witness :
    encode (DutyValue.percent 50) 1000000 = Except.ok 500000
    ∧ encode (DutyValue.raw 51) 1000000 = Except.ok 200000 :=
  ⟨(claim_C6_encoder_formula.1 50 1000000 (by norm_num) (by norm_num)).trans (by norm_num),
   (claim_C6_encoder_formula.2 51 1000000 (by norm_num) (by norm_num)).trans (by norm_num)⟩

/-- C7: over the u8 payload domain the encoder fails with
InvalidDutyRange exactly for Raw 0, Percent 0 and Percent p with p above
100; in particular such inputs produce an error, not a clamped value and
not a silent no-op. -/
theorem claim_C7_invalid_duty_range :
    ∀ (value : DutyValue) (period : Nat), duty_in_u8 value →
      (encode value period = Except.error PwmError.invalidDutyRange ↔
        value = DutyValue.raw 0 ∨ value = DutyValue.percent 0 ∨
          ∃ p, 100 < p ∧ value = DutyValue.percent p) := by
  intro value period h
  cases value with
  | raw v =>
    simp only [duty_in_u8] at h
    constructor
    · intro he
      by_cases h1 : 1 ≤ v ∧ v ≤ 255
      · simp [encode, h1] at he
      · have hv : v = 0 := by omega
        exact Or.inl (by simp [hv])
    · intro hr
      rcases hr with h0 | h0 | ⟨p, _, h0⟩
      · cases h0
        simp [encode]
      · exact absurd h0 (by simp)
      · exact absurd h0 (by simp)
  | percent p =>
    simp only [duty_in_u8] at h
    constructor
    · intro he
      by_cases h1 : 1 ≤ p ∧ p ≤ 100
      · simp [encode, h1] at he
      · by_cases hp0 : p = 0
        · exact Or.inr (Or.inl (by simp [hp0]))
        · exact Or.inr (Or.inr ⟨p, by omega, rfl⟩)
    · intro hr
      rcases hr with h0 | h0 | ⟨q, hq, h0⟩
      · exact absurd h0 (by simp)
      · cases h0
        simp [encode]
      · cases h0
        have h1 : ¬(1 ≤ p ∧ p ≤ 100) := by omega
        simp [encode, h1]

/-- Witness for C7 at the three concrete rejected inputs. -/
theorem claim_C7_invalid_duty_range_witness :
    encode (DutyValue.raw 0) 1000000 = Except.error PwmError.invalidDutyRange
    ∧ encode (DutyValue.percent 0) 1000000 = Except.error PwmError.invalidDutyRange
    ∧ encode (DutyValue.percent 101) 1000000 = Except.error PwmError.invalidDutyRange :=
  ⟨(claim_C7_invalid_duty_range (DutyValue.raw 0) 1000000 (by simp [duty_in_u8])).mpr
     (Or.inl rfl),
   (claim_C7_invalid_duty_range (DutyValue.percent 0) 1000000 (by simp [duty_in_u8])).mpr
     (Or.inr (Or.inl rfl)),
   (claim_C7_invalid_duty_range (DutyValue.percent 101) 1000000 (by simp [duty_in_u8])).mpr
     (Or.inr (Or.inr ⟨101, by norm_num, rfl⟩))⟩

/-- C2: the enable-on-exit versus disable-on-exit decision is realized by
the close operation of the Device Handle, which receives the
keep_enabled flag and, when it is false, disables and unexports the
channel, and when it is true issues no device operation; the interpreter
handles the letter k only by skipping it, performing no device operation
and consuming one stop-flag reading like any other command. -/
theorem claim_C2_close_realizes_keep_enabled :
    pwm_close false = [DevOp.disable, DevOp.unexport]
    ∧ pwm_close true = []
    ∧ (∀ (cfg : pwm_execute_config_t) (stop : Nat → Bool)
         (dev : Nat → Option PwmError) (rest : List Char)
         (chk opn period : Nat) (ops : List DevOp),
         stop chk = false →
         pwm_execute_go cfg stop dev ('k' :: rest) chk opn period ops =
           pwm_execute_go cfg stop dev rest (chk + 1) opn period ops) := by
  refine ⟨rfl, rfl, ?_⟩
  intro cfg stop dev rest chk opn period ops h
  have hf : ('k' : Char) ≠ 'f' := by decide
  have hd : ('k' : Char) ≠ 'd' := by decide
  have hu : ('k' : Char) ≠ 'u' := by decide
  have hD : ('k' : Char) ≠ 'D' := by decide
  simp [pwm_execute_go, h, hf, hd, hu, hD]

/-- Witness for C2: the skip equation applied at the final letter of the
canonical fduk script. -/
theorem claim_C2_close_realizes_keep_enabled_witness :
    pwm_execute_go ⟨"fduk", 1000, 250, PWM_DUTY_DEFAULT⟩ (fun _ => false)
        (fun _ => none) ['k'] 3 3 1000000
        [DevOp.enable, DevOp.setDuty 500000, DevOp.setFrequency 1000] =
      pwm_execute_go ⟨"fduk", 1000, 250, PWM_DUTY_DEFAULT⟩ (fun _ => false)
        (fun _ => none) [] 4 3 1000000
        [DevOp.enable, DevOp.setDuty 500000, DevOp.setFrequency 1000] :=
  claim_C2_close_realizes_keep_enabled.2.2 _ _ _ [] 3 3 1000000 _ rfl

/-- Every event sequence leaves a set exit_flag set. -/
theorem flag_foldl_true : ∀ evs : List FlagEvent, evs.foldl flag_step true = true
  | [] => rfl
  | e :: rest => by
    have h : flag_step true e = true := by cases e <;> rfl
    rw [List.foldl_cons, h]
    exact flag_foldl_true rest

/-- C5: exit_flag starts false at process start, a signal delivery
writes only true, a non-signal step leaves the flag unchanged, no event
ever resets a set flag, and hence over any run the flag moves from false
to true monotonically, transitioning at most once. -/
theorem claim_C5_exit_flag_monotone :
    exit_flag_init = false
    ∧ (∀ f, handle_signal f = true)
    ∧ (∀ f, flag_step f FlagEvent.readOnlyStep = f)
    ∧ (∀ e, flag_step true e = true)
    ∧ (∀ evs more : List FlagEvent,
        flag_run evs = true → flag_run (evs ++ more) = true) := by
  refine ⟨rfl, fun f => rfl, fun f => rfl, ?_, ?_⟩
  · intro e
    cases e <;> rfl
  · intro evs more h
    unfold flag_run at h ⊢
    rw [List.foldl_append, h]
    exact flag_foldl_true more

/-- Witness for C5: a delivered signal sets the flag and a later
read-only step cannot clear it. -/
theorem claim_C5_exit_flag_monotone_witness :
    handle_signal false = true
    ∧ flag_step true FlagEvent.readOnlyStep = true
    ∧ flag_run ([FlagEvent.signal] ++ [FlagEvent.readOnlyStep]) = true :=
  ⟨claim_C5_exit_flag_monotone.2.1 false,
   claim_C5_exit_flag_monotone.2.2.2.1 FlagEvent.readOnlyStep,
   claim_C5_exit_flag_monotone.2.2.2.2 [FlagEvent.signal] [FlagEvent.readOnlyStep] rfl⟩

/-- C3: with valid arguments, when the open succeeds the process exit
code is the status code of the interpreter result, which is 0 on success
and the status code of the first failure on a script or device error;
when the open fails the exit code is the numeric value of the open
status and the interpreter is never invoked. -/
theorem claim_C3_exit_codes :
    ∀ (opts : List Opt) (cfg : Config) (openStatus : Int) (stop : Nat → Bool)
      (dev : Nat → Option PwmError) (initPeriod : Nat),
      parse_cli_args default_config opts = ParseOutcome.ok cfg →
      (openStatus ≠ 0 →
        pwm_main opts openStatus stop dev initPeriod =
          ([MainEvent.openAttempt], openStatus)
        ∧ MainEvent.execute ∉ (pwm_main opts openStatus stop dev initPeriod).1)
      ∧ (openStatus = 0 →
        (pwm_main opts openStatus stop dev initPeriod).2 =
          status_code (pwm_execute (pwm_execute_config_of cfg) stop dev initPeriod).status)
      ∧ status_code ExecStatus.ok = 0
      ∧ (∀ e, status_code (ExecStatus.error e) = pwm_err_code e) := by
  intro opts cfg openStatus stop dev ip hp
  refine ⟨?_, ?_, rfl, fun e => rfl⟩
  · intro ho
    have ht : pwm_main opts openStatus stop dev ip =
        ([MainEvent.openAttempt], openStatus) := by
      simp [pwm_main, hp, ho]
    exact ⟨ht, by rw [ht]; simp⟩
  · intro ho
    subst ho
    simp [pwm_main, hp]

/-- Witness for C3: an open failure with the ENODEV status exits with
that status, and with a successful open the exit code is the status code
of the interpreter result. -/
theorem claim_C3_exit_codes_witness :
    pwm_main [] (-19) (fun _ => false) (fun _ => none) 0 =
      ([MainEvent.openAttempt], -19)
    ∧ (pwm_main [] 0 (fun _ => false) (fun _ => none) 0).2 =
        status_code (pwm_execute (pwm_execute_config_of default_config)
          (fun _ => false) (fun _ => none) 0).status :=
  ⟨((claim_C3_exit_codes [] default_config (-19) (fun _ => false) (fun _ => none) 0
      rfl).1 (by decide)).1,
   (claim_C3_exit_codes [] default_config 0 (fun _ => false) (fun _ => none) 0
      rfl).2.1 rfl⟩

/-- C4 counterexample: a run with valid arguments (the empty option
stream parses successfully) in which the open fails does not perform the
claimed sequence: the interpreter is never invoked, the handle is never
closed, and the exit code is the open status rather than an interpreter
status code. -/
theorem claim_C4_counterexample :
    parse_cli_args default_config [] = ParseOutcome.ok default_config
    ∧ pwm_main [] (-19) (fun _ => false) (fun _ => none) 0 =
        ([MainEvent.openAttempt], -19)
    ∧ MainEvent.execute ∉ (pwm_main [] (-19) (fun _ => false) (fun _ => none) 0).1
    ∧ MainEvent.close ∉ (pwm_main [] (-19) (fun _ => false) (fun _ => none) 0).1 := by
  refine ⟨rfl, by decide, by decide, by decide⟩

/-- C4 as amended: for every run with valid arguments in which the open
succeeds, main performs exactly the sequence open, interpreter
invocation, close (the close unconditionally, whatever status the
interpreter reported) and exits with the status code of the interpreter
result; the configuration was built by the preceding successful parse. -/
theorem claim_C4_control_flow :
    ∀ (opts : List Opt) (cfg : Config) (stop : Nat → Bool)
      (dev : Nat → Option PwmError) (initPeriod : Nat),
      parse_cli_args default_config opts = ParseOutcome.ok cfg →
      pwm_main opts 0 stop dev initPeriod =
        ([MainEvent.openAttempt, MainEvent.execute, MainEvent.close],
          status_code (pwm_execute (pwm_execute_config_of cfg) stop dev initPeriod).status) := by
  intro opts cfg stop dev ip hp
  simp [pwm_main, hp]

/-- Witness for C4: the default run with a succeeding open performs the
full sequence and exits 0. -/
theorem claim_C4_control_flow_witness :
    pwm_main [] 0 (fun _ => false) (fun _ => none) 0 =
      ([MainEvent.openAttempt, MainEvent.execute, MainEvent.close], 0) :=
  (claim_C4_control_flow [] default_config (fun _ => false) (fun _ => none) 0 rfl).trans
    (by decide)

/-- C8: for every non-empty script, a stop signal already set before the
first step makes the interpreter execute zero commands and return the
distinct interrupted status; that status maps to the non-error process
code 0, and after a successful open the caller closes the handle
whatever the interpreter returned. -/
theorem claim_C8_stop_before_first_step :
    (∀ (cfg : pwm_execute_config_t) (stop : Nat → Bool)
       (dev : Nat → Option PwmError) (initPeriod : Nat),
       cfg.script ≠ "" → stop 0 = true →
       pwm_execute cfg stop dev initPeriod = ⟨[], ExecStatus.interrupted⟩)
    ∧ status_code ExecStatus.interrupted = 0
    ∧ (∀ (opts : List Opt) (cfg : Config) (stop : Nat → Bool)
         (dev : Nat → Option PwmError) (initPeriod : Nat),
         parse_cli_args default_config opts = ParseOutcome.ok cfg →
         MainEvent.close ∈ (pwm_main opts 0 stop dev initPeriod).1) := by
  refine ⟨?_, rfl, ?_⟩
  · intro cfg stop dev ip hs h0
    have hne : cfg.script.data ≠ [] := by
      intro hd
      apply hs
      rcases hq : cfg.script with ⟨l⟩
      rw [hq] at hd
      have hl : l = [] := hd
      rw [hl]
    unfold pwm_execute
    cases hsd : cfg.script.data with
    | nil => exact absurd hsd hne
    | cons c cs => simp [pwm_execute_go, h0]
  · intro opts cfg stop dev ip hp
    have ht : pwm_main opts 0 stop dev ip =
        ([MainEvent.openAttempt, MainEvent.execute, MainEvent.close],
          status_code (pwm_execute (pwm_execute_config_of cfg) stop dev ip).status) := by
      simp [pwm_main, hp]
    rw [ht]
    simp

/-- Witness for C8: the canonical default script under an already set
stop signal, and the close milestone of the corresponding run of main. -/
theorem claim_C8_stop_before_first_step_witness :
    pwm_execute ⟨"fdu", 1000, 250, PWM_DUTY_DEFAULT⟩ (fun _ => true) (fun _ => none) 0 =
      ⟨[], ExecStatus.interrupted⟩
    ∧ MainEvent.close ∈ (pwm_main [] 0 (fun _ => true) (fun _ => none) 0).1 :=
  ⟨claim_C8_stop_before_first_step.1 ⟨"fdu", 1000, 250, PWM_DUTY_DEFAULT⟩
      (fun _ => true) (fun _ => none) 0 (by decide) rfl,
   claim_C8_stop_before_first_step.2.2 [] default_config (fun _ => true)
      (fun _ => none) 0 rfl⟩

/-- C9: the stored duty value is PWM_DUTY_PERCENT_FLAG bitwise-or the
strtoul base 10 value when the non-empty argument ends in the percent
sign and the strtoul base 0 value otherwise, so raw duties accept
hexadecimal and octal spellings while percent duties are read as decimal
only, and out-of-range values such as 0 and 0 percent are stored for the
core without validation. -/
theorem claim_C9_duty_argument_parsing :
    (∀ s : String, s.data ≠ [] → s.data.getLast? = some '%' →
       parse_duty_arg s = (PWM_DUTY_PERCENT_FLAG ||| (strtoul s.data 10 % 2 ^ 32)))
    ∧ (∀ s : String, s.data.getLast? ≠ some '%' →
       parse_duty_arg s = strtoul s.data 0 % 2 ^ 32)
    ∧ (∀ (cfg : Config) (a : String) (rest : List Opt),
       parse_cli_args cfg (Opt.duty a :: rest) =
         parse_cli_args { cfg with duty_val := parse_duty_arg a } rest)
    ∧ parse_duty_arg "0x10" = 16
    ∧ parse_duty_arg "010" = 8
    ∧ parse_duty_arg "16" = 16
    ∧ parse_duty_arg "50%" = PWM_DUTY_PERCENT_FLAG ||| 50
    ∧ parse_duty_arg "0x10%" = PWM_DUTY_PERCENT_FLAG
    ∧ parse_duty_arg "0" = 0
    ∧ parse_duty_arg "0%" = PWM_DUTY_PERCENT_FLAG := by
  refine ⟨?_, ?_, ?_, by decide, by decide, by decide, by decide, by decide,
    by decide, by decide⟩
  · intro s h1 h2
    have hl : 0 < s.data.length := List.length_pos.mpr h1
    simp only [parse_duty_arg]
    rw [if_pos ⟨hl, h2⟩]
  · intro s h2
    have hc : ¬(0 < s.data.length ∧ s.data.getLast? = some '%') :=
      fun hx => h2 hx.2
    simp only [parse_duty_arg]
    rw [if_neg hc]
  · intro cfg a rest
    rfl

/-- Witness for C9: a percent argument and a raw decimal argument. -/
theorem claim_C9_duty_argument_parsing_witness :
    parse_duty_arg "7%" = PWM_DUTY_PERCENT_FLAG ||| 7
    ∧ parse_duty_arg "12" = 12 :=
  ⟨(claim_C9_duty_argument_parsing.1 "7%" (by decide) (by decide)).trans (by decide),
   (claim_C9_duty_argument_parsing.2.1 "12" (by decide)).trans (by decide)⟩

/-- Whether an option report makes parse_cli_args stop consuming the
stream, by returning (an invalid option) or by exiting (help, version). -/
def opt_terminates : Opt → Bool
  | .invalid => true
  | .help => true
  | .version => true
  | _ => false

/-- An invalid option reached after any run of configuration-updating
reports makes parse_cli_args return the invalid-option outcome. -/
theorem parse_cli_args_skips_nonterminating :
    ∀ (pre : List Opt) (cfg : Config) (rest : List Opt),
      (∀ o ∈ pre, opt_terminates o = false) →
      parse_cli_args cfg (pre ++ Opt.invalid :: rest) = ParseOutcome.invalid_option
  | [], _cfg, rest, _ => by simp [parse_cli_args]
  | o :: pre, cfg, rest, h => by
    have ho : opt_terminates o = false := h o (by simp)
    have hpre : ∀ x ∈ pre, opt_terminates x = false := fun x hx => h x (by simp [hx])
    cases o with
    | invalid => simp [opt_terminates] at ho
    | help => simp [opt_terminates] at ho
    | version => simp [opt_terminates] at ho
    | chip a =>
      simp only [List.cons_append, parse_cli_args]
      exact parse_cli_args_skips_nonterminating pre _ rest hpre
    | channel a =>
      simp only [List.cons_append, parse_cli_args]
      exact parse_cli_args_skips_nonterminating pre _ rest hpre
    | frequency a =>
      simp only [List.cons_append, parse_cli_args]
      exact parse_cli_args_skips_nonterminating pre _ rest hpre
    | duration a =>
      simp only [List.cons_append, parse_cli_args]
      exact parse_cli_args_skips_nonterminating pre _ rest hpre
    | duty a =>
      simp only [List.cons_append, parse_cli_args]
      exact parse_cli_args_skips_nonterminating pre _ rest hpre
    | script a =>
      simp only [List.cons_append, parse_cli_args]
      exact parse_cli_args_skips_nonterminating pre _ rest hpre
    | keep =>
      simp only [List.cons_append, parse_cli_args]
      exact parse_cli_args_skips_nonterminating pre _ rest hpre

/-- C10: when the getopt stream reports an invalid option (after any run
of ordinary option reports), main prints the usage text and exits with
code EINVAL, and its trace contains neither an open attempt nor an
interpreter invocation. -/
theorem claim_C10_invalid_option_exits :
    ∀ (pre rest : List Opt) (openStatus : Int) (stop : Nat → Bool)
      (dev : Nat → Option PwmError) (initPeriod : Nat),
      (∀ o ∈ pre, opt_terminates o = false) →
      pwm_main (pre ++ Opt.invalid :: rest) openStatus stop dev initPeriod =
        ([MainEvent.usage], EINVAL)
      ∧ MainEvent.openAttempt ∉
          (pwm_main (pre ++ Opt.invalid :: rest) openStatus stop dev initPeriod).1
      ∧ MainEvent.execute ∉
          (pwm_main (pre ++ Opt.invalid :: rest) openStatus stop dev initPeriod).1 := by
  intro pre rest openStatus stop dev ip h
  have hp := parse_cli_args_skips_nonterminating pre default_config rest h
  have ht : pwm_main (pre ++ Opt.invalid :: rest) openStatus stop dev ip =
      ([MainEvent.usage], EINVAL) := by
    simp [pwm_main, hp]
  exact ⟨ht, by rw [ht]; decide, by rw [ht]; decide⟩

/-- Witness for C10: a keep-enabled report followed by an invalid
option. -/
theorem claim_C10_invalid_option_exits_witness :
    pwm_main ([Opt.keep] ++ Opt.invalid :: []) 0 (fun _ => false) (fun _ => none) 0 =
      ([MainEvent.usage], EINVAL) :=
  (claim_C10_invalid_option_exits [Opt.keep] [] 0 (fun _ => false) (fun _ => none) 0
    (by decide)).1

end PwmTool
